import Mathlib

/-!
Shallow embedding of the ResumeMaker repository (Next.js resume builder):
the resume data model, the preview renderer's section predicates, URL
normalization, the AI-enhancement client functions, the enhancement API
endpoint handler, and the PDF placement arithmetic, together with theorems
settling the specification claims about them.

Sources embedded:
- `src/app/page.tsx`: `normalizeUrl`, `handleEnhance`, `handleEnhanceArray`,
  `downloadPdf` (placement arithmetic), the `has` memo and the preview JSX.
- `src/app/layout.tsx` (bundled API route): the `/api/enhance` `handler`.
-/

set_option autoImplicit false

namespace ResumeMaker

/-- `ContactInfo` from `src/app/page.tsx`: optional fields are `Option`. -/
structure ContactInfo where
  fullName : String
  email : Option String := none
  phone : Option String := none
  linkedin : Option String := none
  github : Option String := none
  website : Option String := none
  deriving DecidableEq, Repr, Inhabited

/-- `ExperienceItem` from `src/app/page.tsx`; the `end` field is written
`«end»` because `end` is a Lean keyword. -/
structure ExperienceItem where
  role : String
  company : Option String := none
  location : Option String := none
  start : Option String := none
  «end» : Option String := none
  description : Option String := none
  deriving DecidableEq, Repr, Inhabited

/-- `ProjectItem` from `src/app/page.tsx`. -/
structure ProjectItem where
  name : String
  link : Option String := none
  repo : Option String := none
  description : Option String := none
  tech : Option String := none
  deriving DecidableEq, Repr, Inhabited

/-- `EducationItem` from `src/app/page.tsx`. -/
structure EducationItem where
  degree : String
  school : Option String := none
  start : Option String := none
  «end» : Option String := none
  score : Option String := none
  deriving DecidableEq, Repr, Inhabited

/-- `CertificationItem` from `src/app/page.tsx`. -/
structure CertificationItem where
  title : String
  issuer : Option String := none
  year : Option String := none
  link : Option String := none
  deriving DecidableEq, Repr, Inhabited

/-- The union type `{ techTools: string[]; softSkills: string[] } | string`
of the `skills` field: either the canonical mapping shape or the legacy
comma-separated string shape. -/
inductive Skills where
  | mapping (techTools softSkills : List String)
  | legacy (raw : String)
  deriving DecidableEq, Repr, Inhabited

/-- `ResumeData` from `src/app/page.tsx` (all optional fields are `Option`). -/
structure ResumeData where
  contact : ContactInfo
  about : Option String := none
  experience : List ExperienceItem := []
  projects : List ProjectItem := []
  certifications : List CertificationItem := []
  skills : Option Skills := none
  education : List EducationItem := []
  profileImageDataUrl : Option String := none
  certificatesLink : Option String := none
  deriving DecidableEq, Repr, Inhabited

/-- JavaScript `String.prototype.trim`, implemented structurally on the
character list so that it evaluates by kernel reduction (whitespace per
`Char.isWhitespace`; the inputs in this development are ASCII). -/
def jsTrim (s : String) : String :=
  String.mk (((s.data.dropWhile Char.isWhitespace).reverse.dropWhile Char.isWhitespace).reverse)

/-- JavaScript `String.prototype.toLowerCase` (ASCII case mapping),
implemented structurally. -/
def jsToLower (s : String) : String :=
  String.mk (s.data.map Char.toLower)

/-- JavaScript `String.prototype.startsWith`, implemented structurally. -/
def jsStartsWith (pre s : String) : Bool :=
  List.isPrefixOf pre.data s.data

/-- Split a character list at every comma; the core of JavaScript
`String.prototype.split(',')` (splitting `[]` yields `[[]]`, just as
`''.split(',')` yields `['']`). -/
def splitCommaChars : List Char → List (List Char)
  | [] => [[]]
  | c :: rest =>
    let r := splitCommaChars rest
    if c = ',' then [] :: r
    else
      match r with
      | h :: t => (c :: h) :: t
      | [] => [[c]]

/-- JavaScript `s.split(',')`. -/
def jsSplitComma (s : String) : List String :=
  (splitCommaChars s.data).map String.mk

/-- The regex test `/^https?:\/\//i.test(trimmed)` from `normalizeUrl`:
the string starts (case-insensitively) with `http://` or `https://`. -/
def hasHttpScheme (s : String) : Bool :=
  jsStartsWith "http://" (jsToLower s) || jsStartsWith "https://" (jsToLower s)

/-- `normalizeUrl(raw?: string)` from `src/app/page.tsx` lines 85-91:
`undefined`/blank input yields `undefined`; a trimmed input with an
`http(s)://` scheme is returned trimmed; otherwise `https://` is prefixed
to the trimmed input. -/
def normalizeUrl : Option String → Option String
  | none => none
  | some raw =>
    let trimmed := jsTrim raw
    if trimmed = "" then none
    else if hasHttpScheme trimmed then some trimmed
    else some ("https://" ++ trimmed)

/-- The expression `(data.skills || '').split(',').map(s=>s.trim()).filter(Boolean)`
used for the legacy string shape in both `TagsInput` wiring and the preview
(`src/app/page.tsx` lines 457, 561, 565). -/
def splitLegacySkills (s : String) : List String :=
  ((jsSplitComma s).map jsTrim).filter (fun t => t ≠ "")

/-- The Tech & Tools tag list the preview renders (`src/app/page.tsx`
lines 561-567): legacy strings are split/trimmed/filtered; the mapping
shape contributes `techTools`; an absent `skills` contributes `[]`. -/
def renderedTechTags : Option Skills → List String
  | some (Skills.legacy s) => splitLegacySkills s
  | some (Skills.mapping techTools _) => techTools
  | none => []

/-- The Soft Skills tag list the preview renders (`src/app/page.tsx`
lines 571-577): legacy strings contribute `[]` (soft skills dropped); the
mapping shape contributes `softSkills`. -/
def renderedSoftTags : Option Skills → List String
  | some (Skills.legacy _) => []
  | some (Skills.mapping _ softSkills) => softSkills
  | none => []

/-- The `has.exp` flag of the `has` memo (`src/app/page.tsx` line 237):
`data.experience?.length`, truthy iff the list is non-empty. -/
def hasExp (d : ResumeData) : Bool :=
  d.experience.length != 0

/-- The rendered Work Experience section (`src/app/page.tsx` lines 585-604):
rendered (heading and all) iff `has.exp` is truthy; its item list is
`data.experience.filter((e) => e.role?.trim())`. `none` means the section
(including its heading) is omitted. -/
def previewExperience (d : ResumeData) : Option (List ExperienceItem) :=
  if hasExp d then some (d.experience.filter (fun e => jsTrim e.role ≠ "")) else none

/-- The JSON body of a response from `/api/enhance`
(`type Data = { enhanced?: string; error?: string }` in the API route). -/
structure ApiResponse where
  status : Nat
  enhanced : Option String := none
  error : Option String := none
  deriving DecidableEq, Repr, Inhabited

/-- A request to `/api/enhance` as the handler reads it: the HTTP method and
the optional `text` and `field` members of the JSON body. -/
structure ApiRequest where
  method : String
  text : Option String := none
  field : Option String := none
  deriving DecidableEq, Repr, Inhabited

/-- Outcome of the call to the hosted text-generation provider inside the
handler: either the provider's raw output text, or any thrown failure
(caught by the handler's `try/catch`). -/
inductive ProviderResult where
  | success (output : String)
  | failure
  deriving DecidableEq, Repr, Inhabited

/-- JavaScript falsiness of `process.env.GEMINI_API_KEY` in the route's
`if (!key)` check: the variable is falsy when it is undefined or the empty
string. -/
def falsyKey : Option String → Bool
  | none => true
  | some s => s = ""

/-- The `/api/enhance` route `handler` (bundled in `src/app/layout.tsx`),
parameterized by the `GEMINI_API_KEY` environment value and the provider
outcome: non-POST is 405; a falsy key (undefined or empty, per `if (!key)`)
is 500 `Missing GEMINI_API_KEY`; missing/blank `text` is 400
`Text is required`; otherwise the provider's trimmed output is returned as
200 `{enhanced}`, and any provider failure is 500 `Failed to enhance text`. -/
def handler (key : Option String) (req : ApiRequest) (provider : ProviderResult) :
    ApiResponse :=
  if req.method ≠ "POST" then { status := 405, error := some "Method Not Allowed" }
  else if falsyKey key then { status := 500, error := some "Missing GEMINI_API_KEY" }
  else
    match req.text with
    | none => { status := 400, error := some "Text is required" }
    | some t =>
      if jsTrim t = "" then { status := 400, error := some "Text is required" }
      else
        match provider with
        | ProviderResult.success out => { status := 200, enhanced := some (jsTrim out) }
        | ProviderResult.failure => { status := 500, error := some "Failed to enhance text" }

/-- Outcome of the client's `fetch('/api/enhance', ...)`: a network error
(rejected promise, caught by the client) or a parsed response. -/
inductive FetchResult where
  | networkError
  | response (resp : ApiResponse)
  deriving DecidableEq, Repr, Inhabited

/-- Result of running one of the client enhancement functions:
whether a network request was issued and the resume document afterwards.
The embedding is total: every branch of the source functions either
returns normally or catches its exception, so no outcome raises. -/
structure EnhanceOutcome where
  requestSent : Bool
  data : ResumeData
  deriving DecidableEq, Repr

/-- JavaScript truthiness of `json?.enhanced` when `enhanced` is an optional
string member: truthy iff present and non-empty. -/
def truthyEnhanced : Option String → Bool
  | none => false
  | some s => s ≠ ""

/-- `handleEnhance(field, text)` from `src/app/page.tsx` lines 139-154:
blank text is a silent no-op with no request; otherwise a request is sent
and, when the parsed body carries a truthy `enhanced`, the store is updated
only when `field === 'about'`. Network errors are caught and logged. -/
def handleEnhance (d : ResumeData) (field : String) (text : String)
    (result : FetchResult) : EnhanceOutcome :=
  if jsTrim text = "" then ⟨false, d⟩
  else
    match result with
    | FetchResult.networkError => ⟨true, d⟩
    | FetchResult.response resp =>
      if truthyEnhanced resp.enhanced then
        if field = "about" then ⟨true, { d with about := resp.enhanced }⟩
        else ⟨true, d⟩
      else ⟨true, d⟩

/-- The two array keys `handleEnhanceArray` accepts: `'experience' | 'projects'`. -/
inductive ArrayKey where
  | experience
  | projects
  deriving DecidableEq, Repr

/-- The in-range case of `arr[index] = { ...arr[index], ... }`: apply `upd`
to the element at `i`. (For an out-of-range index, JavaScript would extend
the array with holes; the claims only concern valid indices, where the
assignment is `List.set`.) -/
def setDescAt {α : Type} (upd : α → α) (l : List α) (i : Nat) : List α :=
  match l.get? i with
  | some e => l.set i (upd e)
  | none => l

/-- `arr[index] = { ...arr[index], description: enhanced }` on the
experience list. -/
def setExpDescription (l : List ExperienceItem) (i : Nat) (s : String) :
    List ExperienceItem :=
  setDescAt (fun e => { e with description := some s }) l i

/-- `arr[index] = { ...arr[index], description: enhanced }` on the
projects list. -/
def setProjDescription (l : List ProjectItem) (i : Nat) (s : String) :
    List ProjectItem :=
  setDescAt (fun p => { p with description := some s }) l i

/-- `handleEnhanceArray(key, index, text)` from `src/app/page.tsx` lines
156-178: blank text is a silent no-op with no request; otherwise a request
is sent and, when the parsed body carries a truthy `enhanced`, the item at
`index` of `data[key]` has its `description` overwritten and the updated
copy of the list is written back via `update(key, arr)`. -/
def handleEnhanceArray (d : ResumeData) (key : ArrayKey) (index : Nat)
    (text : String) (result : FetchResult) : EnhanceOutcome :=
  if jsTrim text = "" then ⟨false, d⟩
  else
    match result with
    | FetchResult.networkError => ⟨true, d⟩
    | FetchResult.response resp =>
      match resp.enhanced with
      | some s =>
        if s ≠ "" then
          match key with
          | ArrayKey.experience =>
            ⟨true, { d with experience := setExpDescription d.experience index s }⟩
          | ArrayKey.projects =>
            ⟨true, { d with projects := setProjDescription d.projects index s }⟩
        else ⟨true, d⟩
      | none => ⟨true, d⟩

/-- The geometric placement `downloadPdf` computes (`src/app/page.tsx`
lines 186-194), over exact rationals: scale `ratio`, drawn image size
`(imgW, imgH)` and top-left corner `(x, y)`. -/
structure PdfPlacement where
  ratio : ℚ
  imgW : ℚ
  imgH : ℚ
  x : ℚ
  y : ℚ
  deriving DecidableEq, Repr

/-- `downloadPdf`'s placement arithmetic from `src/app/page.tsx` lines
186-194: `ratio = min(pageWidth/w, pageHeight/h)`, image size scaled by
`ratio`, image centered at `((pageWidth-imgW)/2, (pageHeight-imgH)/2)`. -/
def downloadPdfPlacement (pageWidth pageHeight w h : ℚ) : PdfPlacement :=
  let wRatio := pageWidth / w
  let hRatio := pageHeight / h
  let ratio := min wRatio hRatio
  let imgW := w * ratio
  let imgH := h * ratio
  { ratio := ratio, imgW := imgW, imgH := imgH,
    x := (pageWidth - imgW) / 2, y := (pageHeight - imgH) / 2 }

/-- A sample populated document, used to instantiate hypotheses at concrete
inputs: one experience item and one project item. -/
def sampleDoc : ResumeData :=
  { contact := { fullName := "Asha Rao" },
    about := some "hello",
    experience := [{ role := "Intern", company := some "Acme" }],
    projects := [{ name := "Site" }] }

/-- A document whose experience list holds exactly one item, with a
whitespace-only role. -/
def blankRoleDoc : ResumeData :=
  { contact := { fullName := "Asha Rao" },
    experience := [{ role := " " }] }

/-- A fetch outcome the specification counts as an enhancement failure:
a network error; a response whose parsed body lacks a non-empty `enhanced`
string; or a non-success (status ≠ 200) response that the `/api/enhance`
handler can actually produce (the handler only ever attaches `enhanced`
to its 200 responses). -/
def FailedFetch (result : FetchResult) : Prop :=
  result = FetchResult.networkError ∨
  (∃ resp, result = FetchResult.response resp ∧ truthyEnhanced resp.enhanced = false) ∨
  (∃ resp key req provider, result = FetchResult.response resp ∧
     resp.status ≠ 200 ∧ handler key req provider = resp)

/-- C2 counterexample: the claim says an input that already starts with
`http://` or `https://` is returned unchanged, but `normalizeUrl` trims it:
at input `"https://example.com "` (trailing space) the output is the trimmed
string, not the input. -/
theorem normalizeUrl_unchanged_counterexample :
    hasHttpScheme "https://example.com " = true ∧
    normalizeUrl (some "https://example.com ") = some "https://example.com" ∧
    normalizeUrl (some "https://example.com ") ≠ some "https://example.com " := by
  exact ⟨by decide, by decide, by decide⟩

/-- C2 (amended): `normalizeUrl` returns the *trimmed* input when the trimmed
input starts with `http://` or `https://` (case-insensitive), prefixes the
trimmed input with `https://` when it is non-empty without such a scheme,
and returns `none` on missing, empty, or whitespace-only input; in particular
`"example.com"` maps to `"https://example.com"` and `"https://example.com"`
to itself. -/
theorem normalizeUrl_correct (raw : String) (hne : jsTrim raw ≠ "") :
    (hasHttpScheme (jsTrim raw) = true → normalizeUrl (some raw) = some (jsTrim raw)) ∧
    (hasHttpScheme (jsTrim raw) = false →
      normalizeUrl (some raw) = some ("https://" ++ jsTrim raw)) ∧
    normalizeUrl none = none ∧
    (∀ s : String, jsTrim s = "" → normalizeUrl (some s) = none) ∧
    normalizeUrl (some "example.com") = some "https://example.com" ∧
    normalizeUrl (some "https://example.com") = some "https://example.com" := by
  refine ⟨fun hs => ?_, fun hs => ?_, rfl, fun s hs => ?_, by decide, by decide⟩
  · simp [normalizeUrl, hne, hs]
  · simp [normalizeUrl, hne, hs]
  · simp [normalizeUrl, hs]

/-- C2 witness: the amended theorem applied at the concrete input
`"example.com"`. -/
theorem normalizeUrl_correct_witness :
    jsTrim "example.com" ≠ "" ∧
    normalizeUrl (some "example.com") = some "https://example.com" :=
  ⟨by decide, (normalizeUrl_correct "example.com" (by decide)).2.2.2.2.1⟩

/-- C3: when `skills` is the legacy comma-separated string, the preview's
Tech & Tools tag list is that string split on commas with each segment
trimmed and empty segments dropped, and the Soft Skills tag list is empty
(soft skills are silently dropped); when `skills` is the mapping shape, the
rendered lists are `techTools` and `softSkills` respectively. -/
theorem skills_tags_rendering (s : String) (techTools softSkills : List String) :
    renderedTechTags (some (Skills.legacy s)) =
      ((jsSplitComma s).map jsTrim).filter (fun t => t ≠ "") ∧
    renderedSoftTags (some (Skills.legacy s)) = [] ∧
    renderedTechTags (some (Skills.mapping techTools softSkills)) = techTools ∧
    renderedSoftTags (some (Skills.mapping techTools softSkills)) = softSkills :=
  ⟨rfl, rfl, rfl, rfl⟩

/-- C1 counterexample: the claim says the Work Experience heading renders
only if some item has a non-empty trimmed role, but on a document whose
experience list is the single whitespace-role item, `has.exp` (list length)
is truthy and the section renders — with its heading and an empty item
list. -/
theorem experience_heading_counterexample :
    (previewExperience blankRoleDoc).isSome = true ∧
    previewExperience blankRoleDoc = some [] ∧
    blankRoleDoc.experience = [{ role := " " }] ∧
    jsTrim " " = "" := by
  exact ⟨by decide, by decide, by decide, by decide⟩

/-- C1 (amended): the preview renders the Work Experience section (including
its heading) iff the experience list is non-empty; when rendered, the items
shown are exactly those with a non-empty trimmed role, so a non-empty list
all of whose roles are blank renders the heading with zero items. -/
theorem previewExperience_renders_iff_nonempty (d : ResumeData) :
    ((previewExperience d).isSome ↔ d.experience ≠ []) ∧
    previewExperience d =
      (if d.experience.isEmpty then none
       else some (d.experience.filter (fun e => jsTrim e.role ≠ ""))) := by
  cases h : d.experience with
  | nil => simp [previewExperience, hasExp, h]
  | cons a l => simp [previewExperience, hasExp, h]

/-- C4: enhancement with blank (empty or whitespace-only) text is a silent
no-op for both client functions: no request is issued and the document is
unchanged. -/
theorem enhance_blank_noop (d : ResumeData) (field text : String)
    (result : FetchResult) (key : ArrayKey) (index : Nat)
    (h : jsTrim text = "") :
    handleEnhance d field text result = ⟨false, d⟩ ∧
    handleEnhanceArray d key index text result = ⟨false, d⟩ := by
  constructor <;> simp [handleEnhance, handleEnhanceArray, h]

/-- C4 witness: blank text `"   "` on the sample document. -/
theorem enhance_blank_noop_witness :
    jsTrim "   " = "" ∧
    (handleEnhance sampleDoc "about" "   " FetchResult.networkError = ⟨false, sampleDoc⟩ ∧
     handleEnhanceArray sampleDoc ArrayKey.experience 0 "   " FetchResult.networkError =
       ⟨false, sampleDoc⟩) :=
  ⟨by decide, enhance_blank_noop sampleDoc "about" "   " FetchResult.networkError
    ArrayKey.experience 0 (by decide)⟩

/-- C10: for any top-level field name other than `about`, `handleEnhance`
leaves the document unchanged — even when the response carries a non-empty
`enhanced` string, the client only writes back when the field is exactly
`about`. -/
theorem enhance_non_about_noop (d : ResumeData) (field text : String)
    (result : FetchResult) (h : field ≠ "about") :
    (handleEnhance d field text result).data = d := by
  unfold handleEnhance
  by_cases ht : jsTrim text = ""
  · simp [ht]
  · cases result with
    | networkError => simp [ht]
    | response resp =>
      by_cases he : truthyEnhanced resp.enhanced = true <;> simp [ht, he, h]

/-- C10 witness: a successful response for field `"skills"` is discarded. -/
theorem enhance_non_about_noop_witness :
    "skills" ≠ "about" ∧
    (handleEnhance sampleDoc "skills" "some text"
        (FetchResult.response { status := 200, enhanced := some "Better text" })).data =
      sampleDoc :=
  ⟨by decide, enhance_non_about_noop sampleDoc "skills" "some text"
    (FetchResult.response { status := 200, enhanced := some "Better text" }) (by decide)⟩

/-- C7 counterexample: the claim promises 400/`Text is required` for every
POST with blank text, but the handler checks the credential first: with the
key unset, a POST with empty text gets 500/`Missing GEMINI_API_KEY`. -/
theorem text_required_counterexample :
    handler none { method := "POST", text := some "" } ProviderResult.failure =
      { status := 500, error := some "Missing GEMINI_API_KEY" } ∧
    (handler none { method := "POST", text := some "" } ProviderResult.failure).status ≠ 400 := by
  exact ⟨by decide, by decide⟩

/-- C7 (amended): provided the provider credential is set to a non-empty
string (so the route's `if (!key)` falsiness check passes), every POST whose
`text` is missing, empty, or whitespace-only after trimming is answered with
status 400 and body `{error: "Text is required"}`. -/
theorem text_required_400 (key : String) (req : ApiRequest) (provider : ProviderResult)
    (hk : key ≠ "") (hm : req.method = "POST") (ht : jsTrim (req.text.getD "") = "") :
    handler (some key) req provider = { status := 400, error := some "Text is required" } := by
  unfold handler
  rw [if_neg (not_not_intro hm), if_neg (by simp [falsyKey, hk])]
  cases h : req.text with
  | none => rfl
  | some t =>
    rw [h] at ht
    simp only [Option.getD_some] at ht
    simp [ht]

/-- C7 witness: the amended theorem at a whitespace-only `text` with the
credential set to a non-empty string. -/
theorem text_required_400_witness :
    ("k" : String) ≠ "" ∧
    ({ method := "POST", text := some " " } : ApiRequest).method = "POST" ∧
    jsTrim (({ method := "POST", text := some " " } : ApiRequest).text.getD "") = "" ∧
    handler (some "k") { method := "POST", text := some " " } ProviderResult.failure =
      { status := 400, error := some "Text is required" } :=
  ⟨by decide, rfl, by decide, text_required_400 "k" { method := "POST", text := some " " }
    ProviderResult.failure (by decide) rfl (by decide)⟩

/-- C8: with the `GEMINI_API_KEY` credential unset, every POST request is
answered with status 500 and body `{error: "Missing GEMINI_API_KEY"}`,
whatever its body and whatever the provider would have done. -/
theorem missing_key_500 (req : ApiRequest) (provider : ProviderResult)
    (hm : req.method = "POST") :
    handler none req provider = { status := 500, error := some "Missing GEMINI_API_KEY" } := by
  unfold handler
  rw [if_neg (not_not_intro hm)]
  rfl

/-- C8 witness: the request body `{field: "about", text: "i did stuff"}`
with the credential unset. -/
theorem missing_key_500_witness :
    ({ method := "POST", text := some "i did stuff", field := some "about" } : ApiRequest).method =
      "POST" ∧
    handler none { method := "POST", text := some "i did stuff", field := some "about" }
        ProviderResult.failure =
      { status := 500, error := some "Missing GEMINI_API_KEY" } :=
  ⟨rfl, missing_key_500 { method := "POST", text := some "i did stuff", field := some "about" }
    ProviderResult.failure rfl⟩

/-- Every response the handler produces either has status 200 or carries no
`enhanced` member: error responses never contain enhanced text. -/
lemma handler_status_or_enhanced (key : Option String) (req : ApiRequest)
    (provider : ProviderResult) :
    (handler key req provider).status = 200 ∨ (handler key req provider).enhanced = none := by
  unfold handler
  by_cases hm : req.method = "POST"
  · rw [if_neg (not_not_intro hm)]
    by_cases hk : falsyKey key = true
    · rw [if_pos hk]
      exact Or.inr rfl
    · rw [if_neg hk]
      cases req.text with
      | none => exact Or.inr rfl
      | some t =>
        by_cases ht : jsTrim t = ""
        · exact Or.inr (by simp [ht])
        · cases provider with
          | success out => exact Or.inl (by simp [ht])
          | failure => exact Or.inr (by simp [ht])
  · rw [if_pos hm]
    exact Or.inr rfl

/-- C5: on any failed enhancement call — network error, a body without a
non-empty `enhanced` string, or a non-success response as the endpoint
produces them — both client functions leave the resume document unchanged
(the embedding is total, so no outcome raises to the caller). -/
theorem enhance_failure_noop (d : ResumeData) (field text : String)
    (key : ArrayKey) (index : Nat) (result : FetchResult)
    (hfail : FailedFetch result) :
    (handleEnhance d field text result).data = d ∧
    (handleEnhanceArray d key index text result).data = d := by
  by_cases ht : jsTrim text = ""
  · simp [handleEnhance, handleEnhanceArray, ht]
  · obtain rfl | ⟨resp, rfl, hT⟩ | ⟨resp, k, req, prov, rfl, hs, hh⟩ := hfail
    · simp [handleEnhance, handleEnhanceArray, ht]
    · constructor
      · simp [handleEnhance, ht, hT]
      · cases he : resp.enhanced with
        | none => simp [handleEnhanceArray, ht, he]
        | some s =>
          have hs0 : s = "" := by simpa [truthyEnhanced, he] using hT
          simp [handleEnhanceArray, ht, he, hs0]
    · have hnone : resp.enhanced = none := by
        rcases handler_status_or_enhanced k req prov with h200 | hn
        · rw [hh] at h200; exact absurd h200 hs
        · rw [hh] at hn; exact hn
      constructor
      · simp [handleEnhance, ht, truthyEnhanced, hnone]
      · simp [handleEnhanceArray, ht, hnone]

/-- C5 witness: a network error on non-blank text leaves the sample document
unchanged for both client functions. -/
theorem enhance_failure_noop_witness :
    FailedFetch FetchResult.networkError ∧
    ((handleEnhance sampleDoc "about" "good text" FetchResult.networkError).data = sampleDoc ∧
     (handleEnhanceArray sampleDoc ArrayKey.experience 0 "good text"
        FetchResult.networkError).data = sampleDoc) :=
  ⟨Or.inl rfl, enhance_failure_noop sampleDoc "about" "good text" ArrayKey.experience 0
    FetchResult.networkError (Or.inl rfl)⟩

/-- `setDescAt` preserves the list length. -/
lemma setDescAt_length {α : Type} (upd : α → α) (l : List α) (i : Nat) :
    (setDescAt upd l i).length = l.length := by
  unfold setDescAt
  cases hg : l.get? i with
  | none => rfl
  | some e => simp

/-- At an in-range index, `setDescAt` rewrites exactly the element at `i`. -/
lemma setDescAt_get_self {α : Type} (upd : α → α) (l : List α) (i : Nat)
    (h : i < l.length) :
    (setDescAt upd l i).get? i = (l.get? i).map upd := by
  unfold setDescAt
  cases hg : l.get? i with
  | none =>
    have : l.length ≤ i := List.get?_eq_none.mp hg
    omega
  | some e => rw [List.get?_set_eq_of_lt _ h]; rfl

/-- `setDescAt` leaves every other position unchanged. -/
lemma setDescAt_get_ne {α : Type} (upd : α → α) (l : List α) (i j : Nat)
    (hj : j ≠ i) :
    (setDescAt upd l i).get? j = l.get? j := by
  unfold setDescAt
  cases hg : l.get? i with
  | none => rfl
  | some e => exact List.get?_set_ne _ _ (Ne.symm hj)

/-- C6: a successful array enhancement at a valid index `i` replaces the
document's list for that key by a copy whose element `i` has only its
`description` overwritten: the list keeps its length, every other position
is unchanged, and every other top-level field of the document is kept (the
result is a record update of the original at that one list). -/
theorem enhanceArray_frame (d : ResumeData) (i : Nat) (text s : String)
    (resp : ApiResponse)
    (ht : jsTrim text ≠ "") (he : resp.enhanced = some s) (hs : s ≠ "") :
    (i < d.experience.length →
      (handleEnhanceArray d ArrayKey.experience i text (FetchResult.response resp)).data =
        { d with experience := setExpDescription d.experience i s } ∧
      (setExpDescription d.experience i s).length = d.experience.length ∧
      (setExpDescription d.experience i s).get? i =
        (d.experience.get? i).map (fun e => { e with description := some s }) ∧
      (∀ j, j ≠ i → (setExpDescription d.experience i s).get? j = d.experience.get? j)) ∧
    (i < d.projects.length →
      (handleEnhanceArray d ArrayKey.projects i text (FetchResult.response resp)).data =
        { d with projects := setProjDescription d.projects i s } ∧
      (setProjDescription d.projects i s).length = d.projects.length ∧
      (setProjDescription d.projects i s).get? i =
        (d.projects.get? i).map (fun p => { p with description := some s }) ∧
      (∀ j, j ≠ i → (setProjDescription d.projects i s).get? j = d.projects.get? j)) := by
  refine ⟨fun hiE => ⟨?_, setDescAt_length _ _ _, setDescAt_get_self _ _ _ hiE,
      fun j hj => setDescAt_get_ne _ _ _ _ hj⟩,
    fun hiP => ⟨?_, setDescAt_length _ _ _, setDescAt_get_self _ _ _ hiP,
      fun j hj => setDescAt_get_ne _ _ _ _ hj⟩⟩
  · simp [handleEnhanceArray, ht, he, hs]
  · simp [handleEnhanceArray, ht, he, hs]

/-- C6 witness: enhancing the sample document's first experience item. -/
theorem enhanceArray_frame_witness :
    jsTrim "t" ≠ "" ∧ (0 : Nat) < sampleDoc.experience.length ∧
    (handleEnhanceArray sampleDoc ArrayKey.experience 0 "t"
        (FetchResult.response { status := 200, enhanced := some "Improved" })).data =
      { sampleDoc with experience := setExpDescription sampleDoc.experience 0 "Improved" } :=
  ⟨by decide, by decide,
    ((enhanceArray_frame sampleDoc 0 "t" "Improved"
      { status := 200, enhanced := some "Improved" }
      (by decide) rfl (by decide)).1 (by decide)).1⟩

/-- C9: the PDF export's placement arithmetic: the scale is
`min(pageWidth/w, pageHeight/h)`, the drawn image is the bitmap scaled by
it — it fits on the page and keeps the aspect ratio — and the image is
centered, with the right margin equal to the left and the bottom equal to
the top, both nonnegative. -/
theorem downloadPdf_placement_correct (pageWidth pageHeight w h : ℚ)
    (hw : 0 < w) (hh : 0 < h) (hpw : 0 < pageWidth) (hph : 0 < pageHeight) :
    (downloadPdfPlacement pageWidth pageHeight w h).ratio =
      min (pageWidth / w) (pageHeight / h) ∧
    (downloadPdfPlacement pageWidth pageHeight w h).imgW =
      w * (downloadPdfPlacement pageWidth pageHeight w h).ratio ∧
    (downloadPdfPlacement pageWidth pageHeight w h).imgH =
      h * (downloadPdfPlacement pageWidth pageHeight w h).ratio ∧
    (downloadPdfPlacement pageWidth pageHeight w h).imgW ≤ pageWidth ∧
    (downloadPdfPlacement pageWidth pageHeight w h).imgH ≤ pageHeight ∧
    (downloadPdfPlacement pageWidth pageHeight w h).imgW * h =
      (downloadPdfPlacement pageWidth pageHeight w h).imgH * w ∧
    (downloadPdfPlacement pageWidth pageHeight w h).x =
      (pageWidth - (downloadPdfPlacement pageWidth pageHeight w h).imgW) / 2 ∧
    (downloadPdfPlacement pageWidth pageHeight w h).y =
      (pageHeight - (downloadPdfPlacement pageWidth pageHeight w h).imgH) / 2 ∧
    pageWidth - ((downloadPdfPlacement pageWidth pageHeight w h).x +
        (downloadPdfPlacement pageWidth pageHeight w h).imgW) =
      (downloadPdfPlacement pageWidth pageHeight w h).x ∧
    pageHeight - ((downloadPdfPlacement pageWidth pageHeight w h).y +
        (downloadPdfPlacement pageWidth pageHeight w h).imgH) =
      (downloadPdfPlacement pageWidth pageHeight w h).y ∧
    0 ≤ (downloadPdfPlacement pageWidth pageHeight w h).x ∧
    0 ≤ (downloadPdfPlacement pageWidth pageHeight w h).y := by
  have hfitW : w * min (pageWidth / w) (pageHeight / h) ≤ pageWidth := by
    calc w * min (pageWidth / w) (pageHeight / h) ≤ w * (pageWidth / w) :=
          mul_le_mul_of_nonneg_left (min_le_left _ _) hw.le
      _ = pageWidth := by field_simp
  have hfitH : h * min (pageWidth / w) (pageHeight / h) ≤ pageHeight := by
    calc h * min (pageWidth / w) (pageHeight / h) ≤ h * (pageHeight / h) :=
          mul_le_mul_of_nonneg_left (min_le_right _ _) hh.le
      _ = pageHeight := by field_simp
  dsimp only [downloadPdfPlacement]
  refine ⟨rfl, rfl, rfl, hfitW, hfitH, by ring, rfl, rfl, by ring, by ring, ?_, ?_⟩
  · linarith
  · linarith

/-- C9 witness: an A4 page (210 × 297 mm) and a 1588 × 2246 pixel bitmap. -/
theorem downloadPdf_placement_correct_witness :
    ((0 : ℚ) < 1588 ∧ (0 : ℚ) < 2246 ∧ (0 : ℚ) < 210 ∧ (0 : ℚ) < 297) ∧
    (downloadPdfPlacement 210 297 1588 2246).ratio =
      min ((210 : ℚ) / 1588) (297 / 2246) ∧
    (downloadPdfPlacement 210 297 1588 2246).imgW ≤ 210 ∧
    (downloadPdfPlacement 210 297 1588 2246).imgH ≤ 297 ∧
    210 - ((downloadPdfPlacement 210 297 1588 2246).x +
        (downloadPdfPlacement 210 297 1588 2246).imgW) =
      (downloadPdfPlacement 210 297 1588 2246).x :=
  ⟨⟨by norm_num, by norm_num, by norm_num, by norm_num⟩,
    (downloadPdf_placement_correct 210 297 1588 2246
      (by norm_num) (by norm_num) (by norm_num) (by norm_num)).1,
    (downloadPdf_placement_correct 210 297 1588 2246
      (by norm_num) (by norm_num) (by norm_num) (by norm_num)).2.2.2.1,
    (downloadPdf_placement_correct 210 297 1588 2246
      (by norm_num) (by norm_num) (by norm_num) (by norm_num)).2.2.2.2.1,
    (downloadPdf_placement_correct 210 297 1588 2246
      (by norm_num) (by norm_num) (by norm_num) (by norm_num)).2.2.2.2.2.2.2.2.1⟩

end ResumeMaker
